import Mathlib

/-!
Verification development for the user-persistence module (the `Database`
class backed by SQLite) of the student-networking application.

The embedding mirrors the source file:
* SQL TEXT values are lists of characters; NULLable columns are `Option`s.
* The runtime text encodings used by the source (`Date.prototype.toISOString`
  together with `new Date(text)`, and `JSON.stringify` together with
  `JSON.parse`) are modelled as executable lossless encoders and decoders:
  a fixed-width decimal rendering of epoch milliseconds for dates (injective
  and ordered exactly like the real fixed-width ISO-8601 form), and a
  length-delimited field-by-field rendering for the `collegeData` object.
* The lazy memoized initialization (`initializeDatabase` / `_doInitialize`)
  is a small state machine; JavaScript is single threaded and the
  check-then-assign of the memoized promise contains no await point, so the
  interleaving of concurrent callers is modelled by an atomic step.
-/

/-- Stored SQL TEXT values, modelled as their list of characters. -/
abbrev Str := List Char

/-- Byte-wise (memcmp-style) strict comparison used by the engine to order
TEXT values, as in `ORDER BY createdAt DESC`. -/
def textLt : Str → Str → Bool
  | [], [] => false
  | [], _ :: _ => true
  | _ :: _, [] => false
  | a :: as, b :: bs =>
    a.toNat < b.toNat || (a.toNat == b.toNat && textLt as bs)

/-- ASCII-only lower casing of one character, as performed by the engine's
`LOWER` function. -/
def sqlLowerChar (c : Char) : Char :=
  if 65 ≤ c.toNat ∧ c.toNat ≤ 90 then Char.ofNat (c.toNat + 32) else c

/-- ASCII-only lower casing of a TEXT value (`LOWER(fullName)`). -/
def sqlLower (s : Str) : Str := s.map sqlLowerChar

/-- Decimal digit rendered as a character. -/
def digitChar (d : Nat) : Char := Char.ofNat (48 + d)

/-- Character read back as a decimal digit. -/
def charDigit (c : Char) : Nat := c.toNat - 48

theorem charDigit_digitChar {d : Nat} (h : d < 10) :
    charDigit (digitChar d) = d := by
  interval_cases d <;> decide

theorem digitChar_toNat {d : Nat} (h : d < 10) :
    (digitChar d).toNat = 48 + d := by
  interval_cases d <;> decide

/-- Most-significant-first fixed-width decimal digits of a number. -/
def encDigitsW : Nat → Nat → List Nat
  | 0, _ => []
  | w + 1, n => n / 10 ^ w :: encDigitsW w (n % 10 ^ w)

theorem encDigitsW_length (w n : Nat) : (encDigitsW w n).length = w := by
  induction w generalizing n with
  | zero => rfl
  | succ w ih => simp [encDigitsW, ih]

theorem encDigitsW_lt {w n : Nat} (h : n < 10 ^ w) :
    ∀ d ∈ encDigitsW w n, d < 10 := by
  induction w generalizing n with
  | zero => intro d hd; simp [encDigitsW] at hd
  | succ w ih =>
    intro d hd
    simp only [encDigitsW, List.mem_cons] at hd
    rcases hd with hd | hd
    · subst hd
      have hlt : n < 10 ^ w * 10 := by
        have : (10 : Nat) ^ (w + 1) = 10 ^ w * 10 := pow_succ 10 w
        omega
      exact Nat.div_lt_of_lt_mul hlt
    · exact ih (Nat.mod_lt _ (Nat.pos_pow_of_pos w (by norm_num))) d hd

theorem ofDigits_encDigitsW {w n : Nat} (h : n < 10 ^ w) :
    Nat.ofDigits 10 (encDigitsW w n).reverse = n := by
  induction w generalizing n with
  | zero =>
    simp only [Nat.pow_zero, Nat.lt_one_iff] at h
    simp [encDigitsW, h, Nat.ofDigits]
  | succ w ih =>
    have hmod : n % 10 ^ w < 10 ^ w :=
      Nat.mod_lt _ (Nat.pos_pow_of_pos w (by norm_num))
    simp only [encDigitsW, List.reverse_cons]
    rw [Nat.ofDigits_append, ih hmod, Nat.ofDigits_singleton]
    simp only [List.length_reverse, encDigitsW_length]
    have := Nat.div_add_mod n (10 ^ w)
    omega

/-- Modelled from the runtime: `Date.prototype.toISOString`, the canonical
timestamp text used by `addUser` and `updateUser` for `createdAt` and
`verificationTokenExpiry`.  The real encoding is a fixed-width ISO-8601
rendering of the epoch-millisecond value; it is modelled here as a
fixed-width (17 digit) decimal rendering, which is injective and ordered
under byte-wise comparison exactly like the real form. -/
def toISOString (n : Nat) : Str := (encDigitsW 17 n).map digitChar

/-- Modelled from the runtime: `new Date(text)` as used by `rowToUser`.
Canonical encoder output parses back to its epoch-millisecond value; any
other string gives an invalid date, modelled as `none`. -/
def jsNewDate (s : Str) : Option Nat :=
  if s.length = 17 && s.all (fun c => 48 ≤ c.toNat && c.toNat ≤ 57) then
    some (Nat.ofDigits 10 (s.map charDigit).reverse)
  else none

theorem toISOString_length (n : Nat) : (toISOString n).length = 17 := by
  simp [toISOString, encDigitsW_length]

theorem toISOString_ne_nil (n : Nat) : toISOString n ≠ [] := by
  intro h
  have := toISOString_length n
  rw [h] at this
  simp at this

theorem jsNewDate_toISOString {n : Nat} (h : n < 10 ^ 17) :
    jsNewDate (toISOString n) = some n := by
  have hd := encDigitsW_lt h
  have hall : (toISOString n).all (fun c => 48 ≤ c.toNat && c.toNat ≤ 57) = true := by
    rw [List.all_eq_true]
    intro c hc
    rw [toISOString, List.mem_map] at hc
    obtain ⟨d, hdm, rfl⟩ := hc
    have h10 := hd d hdm
    simp only [digitChar_toNat h10, Bool.and_eq_true, decide_eq_true_eq]
    omega
  have hmap : (toISOString n).map charDigit = encDigitsW 17 n := by
    rw [toISOString, List.map_map]
    have hcomp : ∀ d ∈ encDigitsW 17 n, (charDigit ∘ digitChar) d = id d := by
      intro d hdm
      simp [Function.comp, charDigit_digitChar (hd d hdm)]
    rw [List.map_congr_left hcomp, List.map_id]
  rw [jsNewDate, hmap]
  simp only [toISOString_length, hall]
  simp [ofDigits_encDigitsW h]

theorem textLt_digits_mono {w m n : Nat} (hmn : m < n) (hn : n < 10 ^ w) :
    textLt ((encDigitsW w m).map digitChar) ((encDigitsW w n).map digitChar) = true := by
  induction w generalizing m n with
  | zero => simp at hn; omega
  | succ w ih =>
    have hnw : n < 10 ^ w * 10 := by
      have : (10 : Nat) ^ (w + 1) = 10 ^ w * 10 := pow_succ 10 w
      omega
    have hdn : n / 10 ^ w < 10 := Nat.div_lt_of_lt_mul hnw
    have hdm : m / 10 ^ w ≤ n / 10 ^ w := Nat.div_le_div_right (le_of_lt hmn)
    have hpos : 0 < 10 ^ w := Nat.pos_pow_of_pos w (by norm_num)
    simp only [encDigitsW, List.map_cons, textLt]
    rcases lt_or_eq_of_le hdm with hlt | heq
    · have h1 : (digitChar (m / 10 ^ w)).toNat = 48 + m / 10 ^ w :=
        digitChar_toNat (lt_of_le_of_lt hdm hdn)
      have h2 : (digitChar (n / 10 ^ w)).toNat = 48 + n / 10 ^ w :=
        digitChar_toNat hdn
      rw [h1, h2]
      simp only [Bool.or_eq_true, decide_eq_true_eq]
      left
      omega
    · have hmodlt : m % 10 ^ w < n % 10 ^ w := by
        have h1 := Nat.div_add_mod m (10 ^ w)
        have h2 := Nat.div_add_mod n (10 ^ w)
        rw [heq] at h1
        omega
      have hmodn : n % 10 ^ w < 10 ^ w := Nat.mod_lt _ hpos
      rw [heq]
      simp only [Bool.or_eq_true, Bool.and_eq_true, beq_iff_eq]
      right
      exact ⟨trivial, ih hmodlt hmodn⟩

theorem textLt_toISOString {m n : Nat} (hmn : m < n) (hn : n < 10 ^ 17) :
    textLt (toISOString m) (toISOString n) = true :=
  textLt_digits_mono hmn hn

/-- Unary-coded length header: a run of one-characters terminated by a
zero-character.  Used by the length-delimited structured-to-text encoding
that models `JSON.stringify`. -/
def readUnary : Str → Option (Nat × Str)
  | [] => none
  | c :: rest =>
    if c = '0' then some (0, rest)
    else if c = '1' then
      match readUnary rest with
      | none => none
      | some (d, r) => some (d + 1, r)
    else none

/-- Least-significant-first decimal digits, with explicit fuel so that the
recursion is structural. -/
def natDigitsAux : Nat → Nat → List Nat
  | 0, _ => []
  | fuel + 1, n => if n = 0 then [] else n % 10 :: natDigitsAux fuel (n / 10)

/-- Least-significant-first decimal digits of a natural number. -/
def natDigits (n : Nat) : List Nat := natDigitsAux n n

theorem natDigitsAux_eq {fuel n : Nat} (h : n ≤ fuel) :
    natDigitsAux fuel n = Nat.digits 10 n := by
  induction fuel generalizing n with
  | zero =>
    interval_cases n
    simp [natDigitsAux]
  | succ fuel ih =>
    by_cases hn : n = 0
    · simp [natDigitsAux, hn]
    · rw [natDigitsAux, if_neg hn,
        Nat.digits_def' (by norm_num : 1 < 10) (Nat.pos_of_ne_zero hn)]
      have hdiv : n / 10 ≤ fuel := by
        have := Nat.div_lt_self (Nat.pos_of_ne_zero hn) (by norm_num : 1 < 10)
        omega
      rw [ih hdiv]

theorem natDigits_eq (n : Nat) : natDigits n = Nat.digits 10 n :=
  natDigitsAux_eq le_rfl

/-- Length-delimited text encoding of a natural number (unary digit count,
then the decimal digits, least significant first). -/
def encNatV (n : Nat) : Str :=
  List.replicate (natDigits n).length '1' ++
    '0' :: (natDigits n).map digitChar

/-- Decoder for `encNatV`; returns the value and the remaining text. -/
def decNatV (s : Str) : Option (Nat × Str) :=
  match readUnary s with
  | none => none
  | some (d, rest) =>
    if d ≤ rest.length then
      some (Nat.ofDigits 10 ((rest.take d).map charDigit), rest.drop d)
    else none

theorem readUnary_replicate (d : Nat) (r : Str) :
    readUnary (List.replicate d '1' ++ '0' :: r) = some (d, r) := by
  induction d with
  | zero => simp [readUnary]
  | succ d ih => simp [List.replicate_succ, readUnary, ih]

theorem decNatV_encNatV (n : Nat) (r : Str) :
    decNatV (encNatV n ++ r) = some (n, r) := by
  have hassoc : encNatV n ++ r =
      List.replicate (Nat.digits 10 n).length '1' ++
        '0' :: ((Nat.digits 10 n).map digitChar ++ r) := by
    simp [encNatV, natDigits_eq]
  rw [hassoc]
  have hlen : (Nat.digits 10 n).length ≤
      ((Nat.digits 10 n).map digitChar ++ r).length := by
    simp
  simp only [decNatV, readUnary_replicate]
  rw [if_pos hlen]
  have htake : (((Nat.digits 10 n).map digitChar ++ r).take (Nat.digits 10 n).length) =
      (Nat.digits 10 n).map digitChar := by
    rw [List.take_append_of_le_length (by simp), List.take_of_length_le (by simp)]
  have hdrop : (((Nat.digits 10 n).map digitChar ++ r).drop (Nat.digits 10 n).length) = r := by
    rw [List.drop_append_of_le_length (by simp), List.drop_of_length_le (by simp)]
    simp
  rw [htake, hdrop, List.map_map]
  have hcomp : ∀ d ∈ Nat.digits 10 n, (charDigit ∘ digitChar) d = id d := by
    intro d hdm
    simp [Function.comp, charDigit_digitChar (Nat.digits_lt_base (by norm_num) hdm)]
  rw [List.map_congr_left hcomp, List.map_id, Nat.ofDigits_digits]

/-- Length-delimited text encoding of a string field. -/
def encStrV (s : Str) : Str := encNatV s.length ++ s

/-- Decoder for `encStrV`. -/
def decStrV (t : Str) : Option (Str × Str) :=
  match decNatV t with
  | none => none
  | some (n, rest) =>
    if n ≤ rest.length then some (rest.take n, rest.drop n) else none

theorem decStrV_encStrV (s : Str) (r : Str) :
    decStrV (encStrV s ++ r) = some (s, r) := by
  rw [encStrV, List.append_assoc]
  have hlen : s.length ≤ (s ++ r).length := by simp
  simp only [decStrV, decNatV_encNatV]
  rw [if_pos hlen]
  have htake : ((s ++ r).take s.length) = s := by
    rw [List.take_append_of_le_length (by simp), List.take_of_length_le (by simp)]
  have hdrop : ((s ++ r).drop s.length) = r := by
    rw [List.drop_append_of_le_length (by simp), List.drop_of_length_le (by simp)]
    simp
  rw [htake, hdrop]

/-- Tagged encoding of an optional field (absent fields are dropped by
`JSON.stringify`; the tag records presence). -/
def encOptV {α : Type} (enc : α → Str) : Option α → Str
  | none => ['N']
  | some a => 'S' :: enc a

/-- Decoder for `encOptV`. -/
def decOptV {α : Type} (dec : Str → Option (α × Str)) : Str → Option (Option α × Str)
  | [] => none
  | c :: rest =>
    if c = 'N' then some (none, rest)
    else if c = 'S' then
      match dec rest with
      | none => none
      | some (a, r) => some (some a, r)
    else none

theorem decOptV_encOptV {α : Type} (enc : α → Str) (dec : Str → Option (α × Str))
    (hround : ∀ a r, dec (enc a ++ r) = some (a, r)) (o : Option α) (r : Str) :
    decOptV dec (encOptV enc o ++ r) = some (o, r) := by
  cases o with
  | none => simp [encOptV, decOptV]
  | some a => simp [encOptV, decOptV, hround]

/-- Length-delimited encoding of a list field (the ordered `courses` array). -/
def encListV {α : Type} (enc : α → Str) (l : List α) : Str :=
  encNatV l.length ++ (l.map enc).flatten

/-- Decoder for a known number of consecutive elements. -/
def decListN {α : Type} (dec : Str → Option (α × Str)) : Nat → Str → Option (List α × Str)
  | 0, s => some ([], s)
  | n + 1, s =>
    match dec s with
    | none => none
    | some (a, r) =>
      match decListN dec n r with
      | none => none
      | some (l, r2) => some (a :: l, r2)

/-- Decoder for `encListV`. -/
def decListV {α : Type} (dec : Str → Option (α × Str)) (s : Str) :
    Option (List α × Str) :=
  match decNatV s with
  | none => none
  | some (n, rest) => decListN dec n rest

theorem decListN_encode {α : Type} (enc : α → Str) (dec : Str → Option (α × Str))
    (hround : ∀ a r, dec (enc a ++ r) = some (a, r)) (l : List α) (r : Str) :
    decListN dec l.length ((l.map enc).flatten ++ r) = some (l, r) := by
  induction l with
  | nil => simp [decListN]
  | cons a t ih =>
    simp only [List.map_cons, List.flatten_cons, List.length_cons, List.append_assoc]
    simp only [decListN, hround, ih]

theorem decListV_encListV {α : Type} (enc : α → Str) (dec : Str → Option (α × Str))
    (hround : ∀ a r, dec (enc a ++ r) = some (a, r)) (l : List α) (r : Str) :
    decListV dec (encListV enc l ++ r) = some (l, r) := by
  rw [encListV, List.append_assoc, decListV, decNatV_encNatV]
  exact decListN_encode enc dec hround l r

/-- Sign-and-magnitude encoding of an integer field. -/
def encIntV (i : Int) : Str :=
  (if i < 0 then '-' else '+') :: encNatV i.natAbs

/-- Decoder for `encIntV`. -/
def decIntV : Str → Option (Int × Str)
  | [] => none
  | c :: rest =>
    if c = '-' then
      match decNatV rest with
      | none => none
      | some (n, r) => some (-(n : Int), r)
    else if c = '+' then
      match decNatV rest with
      | none => none
      | some (n, r) => some ((n : Int), r)
    else none

theorem decIntV_encIntV (i : Int) (r : Str) :
    decIntV (encIntV i ++ r) = some (i, r) := by
  by_cases h : i < 0
  · have habs : (i.natAbs : Int) = -i := by omega
    simp [encIntV, if_pos h, decIntV, decNatV_encNatV, habs]
  · have hne : ('+' : Char) ≠ '-' := by decide
    have habs : (i.natAbs : Int) = i := by omega
    simp [encIntV, if_neg h, decIntV, hne, decNatV_encNatV, habs]

/-- Numerator-and-denominator encoding of a rational (`gpa`) field; every
finite JavaScript float is an exact rational, and the JSON text of a float
round-trips exactly, so the field is modelled as a rational. -/
def encRatV (q : ℚ) : Str := encIntV q.num ++ encNatV q.den

/-- Decoder for `encRatV`. -/
def decRatV (s : Str) : Option (ℚ × Str) :=
  match decIntV s with
  | none => none
  | some (n, r) =>
    match decNatV r with
    | none => none
    | some (d, r2) => some (mkRat n d, r2)

theorem decRatV_encRatV (q : ℚ) (r : Str) :
    decRatV (encRatV q ++ r) = some (q, r) := by
  rw [encRatV, List.append_assoc, decRatV, decIntV_encIntV]
  simp only [decNatV_encNatV]
  rw [Rat.mkRat_self]

/-- Nested `collegeData` object of a `User` (source lines 22 to 29).  The
`gpa` number is a finite JavaScript float, modelled as a rational. -/
structure CollegeData where
  department : Str
  courses : List Str
  academicYear : Str
  semester : Str
  advisor : Option Str
  gpa : Option ℚ
deriving DecidableEq

/-- Modelled from the runtime: `JSON.stringify` applied to a `collegeData`
object, as done by `addUser` and `updateUser` — a lossless
structured-to-text encoding, rendered field by field with length
delimiters. -/
def stringifyCollege (c : CollegeData) : Str :=
  encStrV c.department ++ encListV encStrV c.courses ++ encStrV c.academicYear ++
    encStrV c.semester ++ encOptV encStrV c.advisor ++ encOptV encRatV c.gpa

/-- Modelled from the runtime: `JSON.parse` applied to a stored
`collegeData` text, as done by `rowToUser`; a malformed text (which
`JSON.parse` would reject) gives `none`. -/
def parseCollege (s : Str) : Option CollegeData :=
  match decStrV s with
  | none => none
  | some (department, r1) =>
  match decListV decStrV r1 with
  | none => none
  | some (courses, r2) =>
  match decStrV r2 with
  | none => none
  | some (academicYear, r3) =>
  match decStrV r3 with
  | none => none
  | some (semester, r4) =>
  match decOptV decStrV r4 with
  | none => none
  | some (advisor, r5) =>
  match decOptV decRatV r5 with
  | none => none
  | some (gpa, r6) =>
  if r6 = [] then some ⟨department, courses, academicYear, semester, advisor, gpa⟩
  else none

theorem parseCollege_stringifyCollege (c : CollegeData) :
    parseCollege (stringifyCollege c) = some c := by
  have hgpa : encOptV encRatV c.gpa = encOptV encRatV c.gpa ++ [] := by simp
  rw [stringifyCollege]
  simp only [List.append_assoc]
  rw [hgpa]
  simp only [parseCollege, decStrV_encStrV,
    decListV_encListV encStrV decStrV decStrV_encStrV,
    decOptV_encOptV encStrV decStrV decStrV_encStrV,
    decOptV_encOptV encRatV decRatV decRatV_encRatV]
  simp

theorem stringifyCollege_ne_nil (c : CollegeData) : stringifyCollege c ≠ [] := by
  intro h
  simp [stringifyCollege, encStrV, encNatV] at h

/-- JavaScript value of an optional record field as it is observed by a
caller: absent (`undefined`), SQL NULL spread verbatim into the object
(`null`), or a present value.  Strict equality distinguishes all three. -/
inductive JsOpt (α : Type) where
  | undef : JsOpt α
  | null : JsOpt α
  | val : α → JsOpt α
deriving DecidableEq

/-- User record as supplied to `addUser` (source interface `User`,
lines 8 to 30).  Optional fields are `string | undefined` in the source,
modelled as `Option`; `Date` values are epoch milliseconds. -/
structure User where
  id : Str
  fullName : Str
  universityEmail : Str
  password : Str
  phoneNumber : Option Str
  universityName : Option Str
  universityId : Option Str
  program : Option Str
  yearOfStudy : Option Str
  createdAt : Nat
  isEmailVerified : Bool
  verificationToken : Option Str
  verificationTokenExpiry : Option Nat
  collegeData : Option CollegeData
deriving DecidableEq

/-- Stored row of the `users` table: TEXT columns as text, NULLable columns
as `Option`, the BOOLEAN column as its stored integer. -/
structure Row where
  id : Str
  fullName : Str
  universityEmail : Str
  password : Str
  phoneNumber : Option Str
  universityName : Option Str
  universityId : Option Str
  program : Option Str
  yearOfStudy : Option Str
  isEmailVerified : Nat
  verificationToken : Option Str
  verificationTokenExpiry : Option Str
  collegeData : Option Str
  createdAt : Str
deriving DecidableEq

/-- Record returned by the read paths: `rowToUser` spreads the row and then
overrides `createdAt`, `isEmailVerified`, `verificationTokenExpiry` and
`collegeData`, so the six optional text fields keep the raw column value
(`null` when the column is NULL), while the overridden fields are decoded.
An invalid date is `none` in the inner option. -/
structure RUser where
  id : Str
  fullName : Str
  universityEmail : Str
  password : Str
  phoneNumber : JsOpt Str
  universityName : JsOpt Str
  universityId : JsOpt Str
  program : JsOpt Str
  yearOfStudy : JsOpt Str
  createdAt : Option Nat
  isEmailVerified : Bool
  verificationToken : JsOpt Str
  verificationTokenExpiry : Option (Option Nat)
  collegeData : Option CollegeData
deriving DecidableEq

/-- Raw column value spread verbatim into the returned object: a NULL
column appears as JavaScript `null`, never as `undefined`. -/
def colToJs : Option Str → JsOpt Str
  | none => JsOpt.null
  | some s => JsOpt.val s

/-- Binding of the `addUser` INSERT (source lines 121 to 135): optional
text fields bind NULL when absent, `verificationTokenExpiry` and
`createdAt` are encoded with `toISOString`, `collegeData` with
`JSON.stringify` (or NULL), and the boolean binds as an integer. -/
def userToRow (u : User) : Row :=
  { id := u.id
    fullName := u.fullName
    universityEmail := u.universityEmail
    password := u.password
    phoneNumber := u.phoneNumber
    universityName := u.universityName
    universityId := u.universityId
    program := u.program
    yearOfStudy := u.yearOfStudy
    isEmailVerified := if u.isEmailVerified then 1 else 0
    verificationToken := u.verificationToken
    verificationTokenExpiry := u.verificationTokenExpiry.map toISOString
    collegeData := u.collegeData.map stringifyCollege
    createdAt := toISOString u.createdAt }

/-- Decoding of a fetched row (source `rowToUser`, lines 224 to 232): the
row is spread verbatim, then `createdAt` is re-parsed as a date,
`isEmailVerified` is coerced to a strict boolean, and the two truthiness
guards turn NULL (or empty text) into `undefined` for
`verificationTokenExpiry` and `collegeData`. -/
def rowToUser (r : Row) : RUser :=
  { id := r.id
    fullName := r.fullName
    universityEmail := r.universityEmail
    password := r.password
    phoneNumber := colToJs r.phoneNumber
    universityName := colToJs r.universityName
    universityId := colToJs r.universityId
    program := colToJs r.program
    yearOfStudy := colToJs r.yearOfStudy
    createdAt := jsNewDate r.createdAt
    isEmailVerified := decide (r.isEmailVerified ≠ 0)
    verificationToken := colToJs r.verificationToken
    verificationTokenExpiry :=
      match r.verificationTokenExpiry with
      | none => none
      | some s => if s = [] then none else some (jsNewDate s)
    collegeData :=
      match r.collegeData with
      | none => none
      | some s => if s = [] then none else parseCollege s }

/-- Errors surfaced by the store: engine-level constraint violations are
propagated uninterpreted; a failed initialization is the single fatal
error thrown by the catch block of `_doInitialize`. -/
inductive DbError where
  | constraint : String → DbError
  | fatalInit : String → DbError
deriving DecidableEq

/-- Settled outcome of one of the async operations (a resolved or rejected
promise). -/
inductive DbResult (α : Type) where
  | ok : α → DbResult α
  | err : DbError → DbResult α
deriving DecidableEq

/-- Engine message for a duplicate `universityEmail` (UNIQUE column). -/
def uniqueEmailMsg : String := "UNIQUE constraint failed: users.universityEmail"

/-- Engine message for a duplicate `id` (PRIMARY KEY column). -/
def pkMsg : String := "UNIQUE constraint failed: users.id"

/-- Message of the error thrown by the catch block of `_doInitialize`
(source line 113), signalling that the persistence layer is unavailable. -/
def initFailMsg : String :=
  "SQLite3 package not installed or database initialization failed. Run: npm install sqlite3 @types/sqlite3"

/-- Table-level semantics of the `addUser` INSERT: the engine enforces the
PRIMARY KEY on `id` and the UNIQUE constraint on `universityEmail`; a new
row is appended in rowid order. -/
def insertRow (rows : List Row) (u : User) : DbResult (List Row) :=
  if rows.any (fun r => decide (r.id = u.id)) then
    DbResult.err (DbError.constraint pkMsg)
  else if rows.any (fun r => decide (r.universityEmail = u.universityEmail)) then
    DbResult.err (DbError.constraint uniqueEmailMsg)
  else DbResult.ok (rows ++ [userToRow u])

/-- WHERE clause of `findUser`: exact email match OR case-insensitive
full-name match (source line 144). -/
def findUserPred (q : Str) (r : Row) : Bool :=
  decide (r.universityEmail = q) || decide (sqlLower r.fullName = sqlLower q)

/-- WHERE clause of `findUserById`. -/
def idPred (i : Str) (r : Row) : Bool := decide (r.id = i)

/-- WHERE clause of `findUserByVerificationToken`: SQL equality, so a NULL
token never matches. -/
def tokenPred (t : Str) (r : Row) : Bool := decide (r.verificationToken = some t)

/-- COUNT(*) of rows with the given email (source `emailExists`). -/
def emailCount (rows : List Row) (e : Str) : Nat :=
  (rows.filter fun r => decide (r.universityEmail = e)).length

/-- Insertion step of the model of `ORDER BY createdAt DESC`: the engine
orders the TEXT column byte-wise, descending. -/
def insertDescRow (r : Row) : List Row → List Row
  | [] => [r]
  | x :: xs =>
    if textLt r.createdAt x.createdAt then x :: insertDescRow r xs
    else r :: x :: xs

/-- Model of `SELECT * FROM users ORDER BY createdAt DESC`. -/
def sortByCreatedDesc : List Row → List Row
  | [] => []
  | x :: xs => insertDescRow x (sortByCreatedDesc xs)

/-- Partial update passed to `updateUser` (`Partial<User>`).  A `none`
field is one whose key is absent or explicitly `undefined`; both take the
same skipped path in the source loop (lines 176 to 187). -/
structure UserUpdate where
  id : Option Str := none
  fullName : Option Str := none
  universityEmail : Option Str := none
  password : Option Str := none
  phoneNumber : Option Str := none
  universityName : Option Str := none
  universityId : Option Str := none
  program : Option Str := none
  yearOfStudy : Option Str := none
  createdAt : Option Nat := none
  isEmailVerified : Option Bool := none
  verificationToken : Option Str := none
  verificationTokenExpiry : Option Nat := none
  collegeData : Option CollegeData := none
deriving DecidableEq

/-- Names collected in the `fields` array of the `updateUser` loop, in
declaration order of the record (the source iterates the caller's key
insertion order; only emptiness and membership matter here). -/
def appliedFields (u : UserUpdate) : List String :=
  (if u.id.isSome then ["id"] else []) ++
  (if u.fullName.isSome then ["fullName"] else []) ++
  (if u.universityEmail.isSome then ["universityEmail"] else []) ++
  (if u.password.isSome then ["password"] else []) ++
  (if u.phoneNumber.isSome then ["phoneNumber"] else []) ++
  (if u.universityName.isSome then ["universityName"] else []) ++
  (if u.universityId.isSome then ["universityId"] else []) ++
  (if u.program.isSome then ["program"] else []) ++
  (if u.yearOfStudy.isSome then ["yearOfStudy"] else []) ++
  (if u.createdAt.isSome then ["createdAt"] else []) ++
  (if u.isEmailVerified.isSome then ["isEmailVerified"] else []) ++
  (if u.verificationToken.isSome then ["verificationToken"] else []) ++
  (if u.verificationTokenExpiry.isSome then ["verificationTokenExpiry"] else []) ++
  (if u.collegeData.isSome then ["collegeData"] else [])

/-- Effect of the collected SET clauses on one row: present fields are
written (with `collegeData` re-encoded to text and `verificationTokenExpiry`
re-encoded to the canonical timestamp text, per the two special branches of
the loop); absent fields keep the stored value. -/
def applyUpd (upd : UserUpdate) (r : Row) : Row :=
  { id := match upd.id with | some v => v | none => r.id
    fullName := match upd.fullName with | some v => v | none => r.fullName
    universityEmail :=
      match upd.universityEmail with | some v => v | none => r.universityEmail
    password := match upd.password with | some v => v | none => r.password
    phoneNumber :=
      match upd.phoneNumber with | some v => some v | none => r.phoneNumber
    universityName :=
      match upd.universityName with | some v => some v | none => r.universityName
    universityId :=
      match upd.universityId with | some v => some v | none => r.universityId
    program := match upd.program with | some v => some v | none => r.program
    yearOfStudy :=
      match upd.yearOfStudy with | some v => some v | none => r.yearOfStudy
    isEmailVerified :=
      match upd.isEmailVerified with
      | some b => if b then 1 else 0
      | none => r.isEmailVerified
    verificationToken :=
      match upd.verificationToken with
      | some v => some v
      | none => r.verificationToken
    verificationTokenExpiry :=
      match upd.verificationTokenExpiry with
      | some n => some (toISOString n)
      | none => r.verificationTokenExpiry
    collegeData :=
      match upd.collegeData with
      | some c => some (stringifyCollege c)
      | none => r.collegeData
    createdAt :=
      match upd.createdAt with
      | some n => toISOString n
      | none => r.createdAt }

/-- Table-level semantics of `updateUser`: when at least one field was
collected, a single UPDATE touches every row whose `id` matches; otherwise
no statement is executed (source line 189).  The boolean reports whether a
statement ran. -/
def updateRows (rows : List Row) (i : Str) (upd : UserUpdate) :
    List Row × Bool :=
  if appliedFields upd = [] then (rows, false)
  else (rows.map (fun r => if r.id = i then applyUpd upd r else r), true)

/-- Environment of one `_doInitialize` run: which of the low-level steps
fail.  The three fatal steps are the data-directory creation, the dynamic
dynamic import of the sqlite3 package, and the CREATE TABLE; the four
ALTER TABLE migrations each sit in their own try/catch. -/
structure InitEnv where
  ensureDirFails : Bool
  importFails : Bool
  createTableFails : Bool
  alterEmailVerifiedFails : Bool
  alterTokenFails : Bool
  alterExpiryFails : Bool
  alterCollegeFails : Bool
deriving DecidableEq

/-- Environment in which every step succeeds. -/
def InitEnv.good : InitEnv := ⟨false, false, false, false, false, false, false⟩

/-- One additive-column (ALTER TABLE) statement: fails when the column
already exists. -/
def alterStep (fails : Bool) : Except String Unit :=
  if fails then Except.error "duplicate column name" else Except.ok ()

/-- Empty catch block around one ALTER TABLE statement (source lines 93 to
107): whatever the statement did, execution continues normally. -/
def swallow (x : Except String Unit) : Except String Unit :=
  match x with
  | _ => Except.ok ()

/-- Body of `_doInitialize` before its catch block: directory creation,
package import and CREATE TABLE propagate their errors; each ALTER TABLE
is individually swallowed. -/
def doInitBody (env : InitEnv) : Except String Unit := do
  if env.ensureDirFails then Except.error "mkdir failed" else Except.ok ()
  if env.importFails then Except.error "Cannot find module sqlite3" else Except.ok ()
  if env.createTableFails then Except.error "CREATE TABLE users failed" else Except.ok ()
  swallow (alterStep env.alterEmailVerifiedFails)
  swallow (alterStep env.alterTokenFails)
  swallow (alterStep env.alterExpiryFails)
  swallow (alterStep env.alterCollegeFails)

/-- Whole `_doInitialize`: the catch block rewrites any escaping error into
the single fatal persistence-layer-unavailable error. -/
def doInit (env : InitEnv) : DbResult Unit :=
  match doInitBody env with
  | Except.ok _ => DbResult.ok ()
  | Except.error _ => DbResult.err (DbError.fatalInit initFailMsg)

/-- Per-instance memoization state: the `initialized` flag and the settled
value of the memoized `initPromise` (`none` before the first attempt). -/
structure InitState where
  isInit : Bool
  initMemo : Option (DbResult Unit)
deriving DecidableEq

/-- State of a freshly constructed `Database` (the constructor does not
initialize). -/
def InitState.fresh : InitState := ⟨false, none⟩

/-- One call of `initializeDatabase` (source lines 50 to 56): return
immediately once initialized, reuse the memoized promise if one exists,
otherwise start and memoize a single `_doInitialize` attempt.  JavaScript
runs the check and the assignment without an intervening await point, so
the step is atomic.  Returns the new state, the result the caller awaits,
and whether a new attempt was started. -/
def initDb (env : InitEnv) (s : InitState) : InitState × DbResult Unit × Bool :=
  if s.isInit then (s, DbResult.ok (), false)
  else
    match s.initMemo with
    | some r => (s, r, false)
    | none =>
      match doInit env with
      | DbResult.ok _ => (⟨true, some (DbResult.ok ())⟩, DbResult.ok (), true)
      | DbResult.err e => (⟨false, some (DbResult.err e)⟩, DbResult.err e, true)

/-- A `Database` instance: memoization state plus the stored table. -/
structure Db where
  init : InitState
  rows : List Row
deriving DecidableEq

/-- Operation `addUser` (ensure initialization, then INSERT). -/
def Db.addUser (env : InitEnv) (d : Db) (u : User) : Db × DbResult Unit :=
  match initDb env d.init with
  | (s, DbResult.ok _, _) =>
    match insertRow d.rows u with
    | DbResult.ok rows => (⟨s, rows⟩, DbResult.ok ())
    | DbResult.err e => (⟨s, d.rows⟩, DbResult.err e)
  | (s, DbResult.err e, _) => (⟨s, d.rows⟩, DbResult.err e)

/-- Operation `findUser` (ensure initialization, then the email-or-name
lookup; `get` returns the first row in scan order or `undefined`). -/
def Db.findUser (env : InitEnv) (d : Db) (q : Str) : Db × DbResult (Option RUser) :=
  match initDb env d.init with
  | (s, DbResult.ok _, _) =>
    (⟨s, d.rows⟩, DbResult.ok ((d.rows.find? (findUserPred q)).map rowToUser))
  | (s, DbResult.err e, _) => (⟨s, d.rows⟩, DbResult.err e)

/-- Operation `findUserById`. -/
def Db.findUserById (env : InitEnv) (d : Db) (i : Str) : Db × DbResult (Option RUser) :=
  match initDb env d.init with
  | (s, DbResult.ok _, _) =>
    (⟨s, d.rows⟩, DbResult.ok ((d.rows.find? (idPred i)).map rowToUser))
  | (s, DbResult.err e, _) => (⟨s, d.rows⟩, DbResult.err e)

/-- Operation `findUserByVerificationToken`. -/
def Db.findUserByVerificationToken (env : InitEnv) (d : Db) (t : Str) :
    Db × DbResult (Option RUser) :=
  match initDb env d.init with
  | (s, DbResult.ok _, _) =>
    (⟨s, d.rows⟩, DbResult.ok ((d.rows.find? (tokenPred t)).map rowToUser))
  | (s, DbResult.err e, _) => (⟨s, d.rows⟩, DbResult.err e)

/-- Operation `updateUser`. -/
def Db.updateUser (env : InitEnv) (d : Db) (i : Str) (upd : UserUpdate) :
    Db × DbResult Unit :=
  match initDb env d.init with
  | (s, DbResult.ok _, _) => (⟨s, (updateRows d.rows i upd).1⟩, DbResult.ok ())
  | (s, DbResult.err e, _) => (⟨s, d.rows⟩, DbResult.err e)

/-- Operation `emailExists` (COUNT query, then `count > 0`). -/
def Db.emailExists (env : InitEnv) (d : Db) (e : Str) : Db × DbResult Bool :=
  match initDb env d.init with
  | (s, DbResult.ok _, _) =>
    (⟨s, d.rows⟩, DbResult.ok (decide (0 < emailCount d.rows e)))
  | (s, DbResult.err er, _) => (⟨s, d.rows⟩, DbResult.err er)

/-- Operation `getAllUsers` (`ORDER BY createdAt DESC`, then decode every
row). -/
def Db.getAllUsers (env : InitEnv) (d : Db) : Db × DbResult (List RUser) :=
  match initDb env d.init with
  | (s, DbResult.ok _, _) =>
    (⟨s, d.rows⟩, DbResult.ok ((sortByCreatedDesc d.rows).map rowToUser))
  | (s, DbResult.err e, _) => (⟨s, d.rows⟩, DbResult.err e)

/-- Operation `clearAllUsers` (DELETE FROM users). -/
def Db.clearAllUsers (env : InitEnv) (d : Db) : Db × DbResult Unit :=
  match initDb env d.init with
  | (s, DbResult.ok _, _) => (⟨s, []⟩, DbResult.ok ())
  | (s, DbResult.err e, _) => (⟨s, d.rows⟩, DbResult.err e)

/-- Sequence of `initializeDatabase` calls against one instance, returning
the final state, every result observed by a caller, and how many
`_doInitialize` attempts were started. -/
def runInit (env : InitEnv) : Nat → InitState → InitState × List (DbResult Unit) × Nat
  | 0, s => (s, [], 0)
  | k + 1, s =>
    match initDb env s with
    | (s1, r, started) =>
      match runInit env k s1 with
      | (s2, rs, n) => (s2, r :: rs, n + (if started then 1 else 0))

theorem initDb_isInit {env : InitEnv} {s : InitState} (h : s.isInit = true) :
    initDb env s = (s, DbResult.ok (), false) := by
  simp [initDb, h]

theorem find?_append_none {p : Row → Bool} {l1 l2 : List Row}
    (h : ∀ r ∈ l1, p r = false) :
    (l1 ++ l2).find? p = l2.find? p := by
  induction l1 with
  | nil => rfl
  | cons a t ih =>
    simp only [List.cons_append]
    rw [List.find?_cons_of_neg _ (by simp [h a (by simp)])]
    exact ih (fun r hr => h r (by simp [hr]))

theorem find?_first {p : Row → Bool} (pre : List Row) (r : Row) (post : List Row)
    (hpre : ∀ x ∈ pre, p x = false) (hr : p r = true) :
    (pre ++ r :: post).find? p = some r := by
  rw [find?_append_none hpre]
  exact List.find?_cons_of_pos _ hr

/-- Input field of a `User` viewed unchanged in a returned record: an
absent optional field stays absent (`undefined`). -/
def optToJs {α : Type} : Option α → JsOpt α
  | none => JsOpt.undef
  | some a => JsOpt.val a

/-- Reading of the claim that `addUser` then `findUserById` "returns a
record equal to u in every field", following the spec's words: the record
a caller would compare `===`-equal, field by field, to the input user.
For comparison with what the read path actually returns. -/
def strictView (u : User) : RUser :=
  { id := u.id
    fullName := u.fullName
    universityEmail := u.universityEmail
    password := u.password
    phoneNumber := optToJs u.phoneNumber
    universityName := optToJs u.universityName
    universityId := optToJs u.universityId
    program := optToJs u.program
    yearOfStudy := optToJs u.yearOfStudy
    createdAt := some u.createdAt
    isEmailVerified := u.isEmailVerified
    verificationToken := optToJs u.verificationToken
    verificationTokenExpiry := u.verificationTokenExpiry.map some
    collegeData := u.collegeData }

/-- C1 (amended).  For every valid user whose `id` and `universityEmail`
are not yet stored, `addUser` succeeds and `findUserById` returns the
record with every field recovered from the input: `collegeData` (when
present) and the date fields `createdAt` and `verificationTokenExpiry`
round-trip through their text encodings with identical values, and the six
optional text fields come back unchanged when present but as `null`
(not `undefined`) when absent, because the row is spread verbatim. -/
theorem addUser_findUserById_roundTrip
    (env : InitEnv) (d : Db) (u : User)
    (hinit : d.init.isInit = true)
    (hid : ∀ r ∈ d.rows, r.id ≠ u.id)
    (hmail : ∀ r ∈ d.rows, r.universityEmail ≠ u.universityEmail)
    (hc : u.createdAt < 10 ^ 17)
    (he : ∀ t, u.verificationTokenExpiry = some t → t < 10 ^ 17) :
    (Db.addUser env d u).2 = DbResult.ok () ∧
    (Db.findUserById env (Db.addUser env d u).1 u.id).2 =
      DbResult.ok (some
        { id := u.id
          fullName := u.fullName
          universityEmail := u.universityEmail
          password := u.password
          phoneNumber := colToJs u.phoneNumber
          universityName := colToJs u.universityName
          universityId := colToJs u.universityId
          program := colToJs u.program
          yearOfStudy := colToJs u.yearOfStudy
          createdAt := some u.createdAt
          isEmailVerified := u.isEmailVerified
          verificationToken := colToJs u.verificationToken
          verificationTokenExpiry := u.verificationTokenExpiry.map some
          collegeData := u.collegeData }) := by
  have hany1 : d.rows.any (fun r => decide (r.id = u.id)) = false := by
    rw [List.any_eq_false]
    intro r hr
    simp [hid r hr]
  have hany2 : d.rows.any (fun r => decide (r.universityEmail = u.universityEmail)) = false := by
    rw [List.any_eq_false]
    intro r hr
    simp [hmail r hr]
  have hins : insertRow d.rows u = DbResult.ok (d.rows ++ [userToRow u]) := by
    simp [insertRow, hany1, hany2]
  have hadd : Db.addUser env d u =
      (⟨d.init, d.rows ++ [userToRow u]⟩, DbResult.ok ()) := by
    simp [Db.addUser, initDb_isInit hinit, hins]
  have hfind : (d.rows ++ [userToRow u]).find? (idPred u.id) = some (userToRow u) := by
    refine find?_first d.rows (userToRow u) [] ?_ ?_
    · intro x hx
      simp [idPred, hid x hx]
    · simp [idPred, userToRow]
  have hver : decide (¬(if u.isEmailVerified then 1 else 0) = 0) = u.isEmailVerified := by
    cases u.isEmailVerified <;> simp
  have hexp : rowToUser (userToRow u) =
      { id := u.id
        fullName := u.fullName
        universityEmail := u.universityEmail
        password := u.password
        phoneNumber := colToJs u.phoneNumber
        universityName := colToJs u.universityName
        universityId := colToJs u.universityId
        program := colToJs u.program
        yearOfStudy := colToJs u.yearOfStudy
        createdAt := some u.createdAt
        isEmailVerified := u.isEmailVerified
        verificationToken := colToJs u.verificationToken
        verificationTokenExpiry := u.verificationTokenExpiry.map some
        collegeData := u.collegeData } := by
    simp only [rowToUser, userToRow, jsNewDate_toISOString hc, hver]
    refine RUser.mk.injEq .. ▸ ?_
    refine ⟨rfl, rfl, rfl, rfl, rfl, rfl, rfl, rfl, rfl, rfl, rfl, rfl, ?_, ?_⟩
    · cases hcase : u.verificationTokenExpiry with
      | none => simp
      | some t =>
        simp [toISOString_ne_nil t, jsNewDate_toISOString (he t hcase)]
    · cases u.collegeData with
      | none => simp
      | some c => simp [stringifyCollege_ne_nil c, parseCollege_stringifyCollege c]
  constructor
  · rw [hadd]
  · rw [hadd]
    simp only [Db.findUserById, initDb_isInit hinit, hfind, Option.map_some']
    rw [hexp]

/-- Environment where initialization succeeds. -/
def envG : InitEnv := InitEnv.good

/-- Instance whose initialization has already succeeded and whose table is
empty. -/
def dbReady : Db := ⟨⟨true, some (DbResult.ok ())⟩, []⟩

/-- Concrete user with every optional field present. -/
def uFull : User :=
  { id := ['u', '1']
    fullName := ['A', 'l', 'i', 'c', 'e']
    universityEmail := ['a', '@', 'x']
    password := ['p', 'w']
    phoneNumber := some ['1', '2', '3']
    universityName := some ['U']
    universityId := some ['I']
    program := some ['C', 'S']
    yearOfStudy := some ['2']
    createdAt := 1700000000000
    isEmailVerified := true
    verificationToken := some ['t', 'k']
    verificationTokenExpiry := some 1700000360000
    collegeData := some ⟨['C', 'S'], [['A'], ['B']], ['2', '4'], ['F'], some ['P'], some 4⟩ }

/-- Concrete user whose optional `phoneNumber` is absent. -/
def uNoPhone : User :=
  { id := ['u', '2']
    fullName := ['B', 'o', 'b']
    universityEmail := ['b', '@', 'x']
    password := ['p', 'w']
    phoneNumber := none
    universityName := none
    universityId := none
    program := none
    yearOfStudy := none
    createdAt := 1000
    isEmailVerified := false
    verificationToken := none
    verificationTokenExpiry := none
    collegeData := none }

/-- C1 counterexample.  For a user whose optional `phoneNumber` is absent,
the record returned by `findUserById` after `addUser` is not equal to the
input in every field: the row is spread verbatim, so the field comes back
as SQL NULL (JavaScript `null`), not as the input's `undefined`. -/
theorem addUser_findUserById_strict_counterexample :
    (Db.findUserById envG (Db.addUser envG dbReady uNoPhone).1 uNoPhone.id).2 ≠
      DbResult.ok (some (strictView uNoPhone)) := by
  decide

/-- C1 witness: the amended round-trip at a fully populated concrete user. -/
theorem addUser_findUserById_roundTrip_witness :
    (Db.addUser envG dbReady uFull).2 = DbResult.ok () ∧
    (Db.findUserById envG (Db.addUser envG dbReady uFull).1 uFull.id).2 =
      DbResult.ok (some
        { id := uFull.id
          fullName := uFull.fullName
          universityEmail := uFull.universityEmail
          password := uFull.password
          phoneNumber := colToJs uFull.phoneNumber
          universityName := colToJs uFull.universityName
          universityId := colToJs uFull.universityId
          program := colToJs uFull.program
          yearOfStudy := colToJs uFull.yearOfStudy
          createdAt := some uFull.createdAt
          isEmailVerified := uFull.isEmailVerified
          verificationToken := colToJs uFull.verificationToken
          verificationTokenExpiry := uFull.verificationTokenExpiry.map some
          collegeData := uFull.collegeData }) :=
  addUser_findUserById_roundTrip envG dbReady uFull rfl
    (by intro r hr; simp [dbReady] at hr)
    (by intro r hr; simp [dbReady] at hr)
    (by decide)
    (by intro t ht; simp [uFull] at ht; omega)

/-- C2.  After `addUser` succeeds for a user, a second `addUser` with the
same `universityEmail` fails with a constraint-violation error, and
`emailExists` for that email returns true. -/
theorem addUser_unique_email
    (env : InitEnv) (d : Db) (u1 u2 : User)
    (hinit : d.init.isInit = true)
    (hid : ∀ r ∈ d.rows, r.id ≠ u1.id)
    (hmail : ∀ r ∈ d.rows, r.universityEmail ≠ u1.universityEmail)
    (hdup : u2.universityEmail = u1.universityEmail) :
    (Db.addUser env d u1).2 = DbResult.ok () ∧
    (∃ m, (Db.addUser env (Db.addUser env d u1).1 u2).2 =
      DbResult.err (DbError.constraint m)) ∧
    (Db.emailExists env (Db.addUser env (Db.addUser env d u1).1 u2).1
      u1.universityEmail).2 = DbResult.ok true := by
  have hany1 : d.rows.any (fun r => decide (r.id = u1.id)) = false := by
    rw [List.any_eq_false]
    intro r hr
    simp [hid r hr]
  have hany2 : d.rows.any (fun r => decide (r.universityEmail = u1.universityEmail)) = false := by
    rw [List.any_eq_false]
    intro r hr
    simp [hmail r hr]
  have hadd : Db.addUser env d u1 =
      (⟨d.init, d.rows ++ [userToRow u1]⟩, DbResult.ok ()) := by
    simp [Db.addUser, initDb_isInit hinit, insertRow, hany1, hany2]
  have hins2 : ∃ m, insertRow (d.rows ++ [userToRow u1]) u2 =
      DbResult.err (DbError.constraint m) := by
    by_cases hany : (d.rows ++ [userToRow u1]).any (fun r => decide (r.id = u2.id)) = true
    · exact ⟨pkMsg, by simp [insertRow, hany]⟩
    · refine ⟨uniqueEmailMsg, ?_⟩
      have hmailany : (d.rows ++ [userToRow u1]).any
          (fun r => decide (r.universityEmail = u2.universityEmail)) = true := by
        rw [List.any_eq_true]
        exact ⟨userToRow u1, by simp, by simp [userToRow, hdup]⟩
      simp only [insertRow, hmailany]
      simp [hany]
  obtain ⟨m, hm⟩ := hins2
  have hadd2 : Db.addUser env ⟨d.init, d.rows ++ [userToRow u1]⟩ u2 =
      (⟨d.init, d.rows ++ [userToRow u1]⟩, DbResult.err (DbError.constraint m)) := by
    simp [Db.addUser, initDb_isInit hinit, hm]
  have hcount : 0 < emailCount (d.rows ++ [userToRow u1]) u1.universityEmail := by
    rw [emailCount, List.length_pos]
    have hmem : userToRow u1 ∈ d.rows ++ [userToRow u1] := by simp
    have hpred : decide ((userToRow u1).universityEmail = u1.universityEmail) = true := by
      simp [userToRow]
    exact List.ne_nil_of_mem (List.mem_filter.mpr ⟨hmem, hpred⟩)
  refine ⟨by rw [hadd], ⟨m, by simp only [hadd, hadd2]⟩, ?_⟩
  simp only [hadd, hadd2]
  simp [Db.emailExists, initDb_isInit hinit, hcount]

/-- Concrete second user sharing `uFull`'s email. -/
def uDupEmail : User :=
  { id := ['u', '9']
    fullName := ['E', 'v', 'e']
    universityEmail := ['a', '@', 'x']
    password := ['q']
    phoneNumber := none
    universityName := none
    universityId := none
    program := none
    yearOfStudy := none
    createdAt := 2000
    isEmailVerified := false
    verificationToken := none
    verificationTokenExpiry := none
    collegeData := none }

/-- C2 witness at concrete users sharing one email. -/
theorem addUser_unique_email_witness :
    (Db.addUser envG dbReady uFull).2 = DbResult.ok () ∧
    (∃ m, (Db.addUser envG (Db.addUser envG dbReady uFull).1 uDupEmail).2 =
      DbResult.err (DbError.constraint m)) ∧
    (Db.emailExists envG (Db.addUser envG (Db.addUser envG dbReady uFull).1 uDupEmail).1
      uFull.universityEmail).2 = DbResult.ok true :=
  addUser_unique_email envG dbReady uFull uDupEmail rfl
    (by intro r hr; simp [dbReady] at hr)
    (by intro r hr; simp [dbReady] at hr)
    (by decide)

/-- C3.  A partial update changes only the fields named in it: the table
keeps its size, rows whose `id` differs are untouched, and on the matching
row every field not named in the update keeps its prior value. -/
theorem updateUser_frame
    (env : InitEnv) (d : Db) (i : Str) (upd : UserUpdate)
    (hinit : d.init.isInit = true) :
    (Db.updateUser env d i upd).1.rows.length = d.rows.length ∧
    (∀ (k : Nat) (r : Row), d.rows[k]? = some r → r.id ≠ i →
      (Db.updateUser env d i upd).1.rows[k]? = some r) ∧
    (∀ (k : Nat) (r r' : Row), d.rows[k]? = some r →
      (Db.updateUser env d i upd).1.rows[k]? = some r' →
      (upd.id = none → r'.id = r.id) ∧
      (upd.fullName = none → r'.fullName = r.fullName) ∧
      (upd.universityEmail = none → r'.universityEmail = r.universityEmail) ∧
      (upd.password = none → r'.password = r.password) ∧
      (upd.phoneNumber = none → r'.phoneNumber = r.phoneNumber) ∧
      (upd.universityName = none → r'.universityName = r.universityName) ∧
      (upd.universityId = none → r'.universityId = r.universityId) ∧
      (upd.program = none → r'.program = r.program) ∧
      (upd.yearOfStudy = none → r'.yearOfStudy = r.yearOfStudy) ∧
      (upd.createdAt = none → r'.createdAt = r.createdAt) ∧
      (upd.isEmailVerified = none → r'.isEmailVerified = r.isEmailVerified) ∧
      (upd.verificationToken = none → r'.verificationToken = r.verificationToken) ∧
      (upd.verificationTokenExpiry = none →
        r'.verificationTokenExpiry = r.verificationTokenExpiry) ∧
      (upd.collegeData = none → r'.collegeData = r.collegeData)) := by
  have hrows : (Db.updateUser env d i upd).1.rows = (updateRows d.rows i upd).1 := by
    simp [Db.updateUser, initDb_isInit hinit]
  by_cases happ : appliedFields upd = []
  · have hval : (updateRows d.rows i upd).1 = d.rows := by
      simp [updateRows, happ]
    rw [hrows, hval]
    refine ⟨rfl, fun k r h1 _ => h1, fun k r r' h1 h2 => ?_⟩
    rw [h1] at h2
    obtain rfl : r = r' := by injection h2
    refine ⟨?_, ?_, ?_, ?_, ?_, ?_, ?_, ?_, ?_, ?_, ?_, ?_, ?_, ?_⟩ <;>
      exact fun _ => rfl
  · have hval : (updateRows d.rows i upd).1 =
        d.rows.map (fun r => if r.id = i then applyUpd upd r else r) := by
      simp [updateRows, happ]
    rw [hrows, hval]
    refine ⟨by simp, ?_, ?_⟩
    · intro k r h1 hne
      rw [List.getElem?_map, h1]
      simp [hne]
    · intro k r r' h1 h2
      rw [List.getElem?_map, h1, Option.map_some'] at h2
      obtain rfl : (if r.id = i then applyUpd upd r else r) = r' := by injection h2
      by_cases hcase : r.id = i
      · rw [if_pos hcase]
        refine ⟨?_, ?_, ?_, ?_, ?_, ?_, ?_, ?_, ?_, ?_, ?_, ?_, ?_, ?_⟩ <;>
          exact fun h => by simp [applyUpd, h]
      · rw [if_neg hcase]
        refine ⟨?_, ?_, ?_, ?_, ?_, ?_, ?_, ?_, ?_, ?_, ?_, ?_, ?_, ?_⟩ <;>
          exact fun _ => rfl

/-- Instance holding exactly the row of `uFull`, already initialized. -/
def dbUFull : Db := ⟨⟨true, some (DbResult.ok ())⟩, [userToRow uFull]⟩

/-- Partial update naming only `isEmailVerified`. -/
def updVerify : UserUpdate := { isEmailVerified := some true }

/-- C3 witness: updating only `isEmailVerified` keeps the table size and
leaves `verificationToken` unchanged on the matching row. -/
theorem updateUser_frame_witness :
    (Db.updateUser envG dbUFull uFull.id updVerify).1.rows.length = 1 ∧
    (applyUpd updVerify (userToRow uFull)).verificationToken =
      (userToRow uFull).verificationToken := by
  have h := updateUser_frame envG dbUFull uFull.id updVerify rfl
  refine ⟨h.1.trans (by decide), ?_⟩
  exact ((h.2.2 0 (userToRow uFull) (applyUpd updVerify (userToRow uFull))
    (by decide) (by decide)).2.2.2.2.2.2.2.2.2.2.2.1) rfl

theorem mem_if_singleton {c : Prop} [Decidable c] {s x : String} :
    (s ∈ if c then [x] else []) ↔ c ∧ s = x := by
  by_cases h : c <;> simp [h]

/-- C4.  The update loop applies only the fields present in the partial
update: a field set to the absence value is skipped (its name is never
collected into the SET list), and when zero applicable fields remain no
statement is executed and the stored rows are unchanged — both at the
table level and for the whole operation. -/
theorem updateUser_applies_only_present :
    (∀ upd : UserUpdate,
      (upd.id = none → "id" ∉ appliedFields upd) ∧
      (upd.fullName = none → "fullName" ∉ appliedFields upd) ∧
      (upd.universityEmail = none → "universityEmail" ∉ appliedFields upd) ∧
      (upd.password = none → "password" ∉ appliedFields upd) ∧
      (upd.phoneNumber = none → "phoneNumber" ∉ appliedFields upd) ∧
      (upd.universityName = none → "universityName" ∉ appliedFields upd) ∧
      (upd.universityId = none → "universityId" ∉ appliedFields upd) ∧
      (upd.program = none → "program" ∉ appliedFields upd) ∧
      (upd.yearOfStudy = none → "yearOfStudy" ∉ appliedFields upd) ∧
      (upd.createdAt = none → "createdAt" ∉ appliedFields upd) ∧
      (upd.isEmailVerified = none → "isEmailVerified" ∉ appliedFields upd) ∧
      (upd.verificationToken = none → "verificationToken" ∉ appliedFields upd) ∧
      (upd.verificationTokenExpiry = none →
        "verificationTokenExpiry" ∉ appliedFields upd) ∧
      (upd.collegeData = none → "collegeData" ∉ appliedFields upd)) ∧
    (∀ (rows : List Row) (i : Str) (upd : UserUpdate),
      appliedFields upd = [] → updateRows rows i upd = (rows, false)) ∧
    (∀ (env : InitEnv) (d : Db) (i : Str) (upd : UserUpdate),
      d.init.isInit = true → appliedFields upd = [] →
      Db.updateUser env d i upd = (d, DbResult.ok ())) := by
  refine ⟨?_, ?_, ?_⟩
  · intro upd
    refine ⟨?_, ?_, ?_, ?_, ?_, ?_, ?_, ?_, ?_, ?_, ?_, ?_, ?_, ?_⟩ <;>
      exact fun h hmem => by
        simp [appliedFields, mem_if_singleton, h] at hmem
  · intro rows i upd h
    simp [updateRows, h]
  · intro env d i upd hinit h
    simp [Db.updateUser, initDb_isInit hinit, updateRows, h]

/-- Empty partial update (zero applicable fields). -/
def updNone : UserUpdate := {}

/-- C4 witness: skipped name, table-level no-op and operation-level no-op
at concrete inputs. -/
theorem updateUser_applies_only_present_witness :
    ("verificationToken" ∉ appliedFields updNone) ∧
    updateRows [userToRow uFull] uFull.id updNone = ([userToRow uFull], false) ∧
    Db.updateUser envG dbUFull uFull.id updNone = (dbUFull, DbResult.ok ()) :=
  ⟨(updateUser_applies_only_present.1 updNone).2.2.2.2.2.2.2.2.2.2.2.1 rfl,
    updateUser_applies_only_present.2.1 [userToRow uFull] uFull.id updNone rfl,
    updateUser_applies_only_present.2.2 envG dbUFull uFull.id updNone rfl rfl⟩

/-- State of the instance after the single initialization attempt. -/
def postInit (env : InitEnv) : InitState :=
  match doInit env with
  | DbResult.ok _ => ⟨true, some (DbResult.ok ())⟩
  | DbResult.err e => ⟨false, some (DbResult.err e)⟩

theorem initDb_fresh (env : InitEnv) :
    initDb env InitState.fresh = (postInit env, doInit env, true) := by
  cases hcase : doInit env <;>
    simp [initDb, InitState.fresh, postInit, hcase]

theorem runInit_postInit (env : InitEnv) (k : Nat) :
    runInit env k (postInit env) =
      (postInit env, List.replicate k (doInit env), 0) := by
  induction k with
  | zero => rfl
  | succ k ih =>
    have hstep : initDb env (postInit env) = (postInit env, doInit env, false) := by
      cases hcase : doInit env <;> simp [initDb, postInit, hcase]
    simp only [runInit, hstep, ih]
    simp [List.replicate_succ]

/-- C5.  Initialization is memoized per instance: starting from a fresh
instance, any number of `initializeDatabase` calls starts at most one
`_doInitialize` attempt (exactly one as soon as there is any call), every
caller observes the result of that same single attempt, and once the
`initialized` flag is set a call is a pure no-op that starts nothing. -/
theorem init_memoized :
    (∀ (env : InitEnv) (k : Nat),
      (runInit env k InitState.fresh).2.2 = min k 1) ∧
    (∀ (env : InitEnv) (k : Nat) (r : DbResult Unit),
      r ∈ (runInit env k InitState.fresh).2.1 → r = doInit env) ∧
    (∀ (env : InitEnv) (s : InitState), s.isInit = true →
      initDb env s = (s, DbResult.ok (), false)) := by
  have hrun : ∀ (env : InitEnv) (k : Nat), 0 < k →
      runInit env k InitState.fresh =
        (postInit env, doInit env :: List.replicate (k - 1) (doInit env), 1) := by
    intro env k hk
    cases k with
    | zero => omega
    | succ k =>
      simp only [runInit, initDb_fresh, runInit_postInit]
      simp
  refine ⟨?_, ?_, ?_⟩
  · intro env k
    cases k with
    | zero => rfl
    | succ k => rw [hrun env (k + 1) (by omega)]; simp
  · intro env k r hr
    cases k with
    | zero => simp [runInit] at hr
    | succ k =>
      rw [hrun env (k + 1) (by omega)] at hr
      simp only [List.mem_cons] at hr
      rcases hr with rfl | hr
      · rfl
      · exact List.eq_of_mem_replicate hr
  · intro env s h
    simp [initDb, h]

/-- C5 witness: two calls on a fresh instance start exactly one attempt,
the first observed result is the attempt's result, and a call on an
initialized instance is a no-op. -/
theorem init_memoized_witness :
    (runInit envG 2 InitState.fresh).2.2 = min 2 1 ∧
    DbResult.ok () = doInit envG ∧
    initDb envG ⟨true, some (DbResult.ok ())⟩ =
      (⟨true, some (DbResult.ok ())⟩, DbResult.ok (), false) :=
  ⟨init_memoized.1 envG 2,
    init_memoized.2.1 envG 2 (DbResult.ok ()) (by decide),
    init_memoized.2.2 envG ⟨true, some (DbResult.ok ())⟩ rfl⟩

/-- Closed form of `_doInitialize`: only the three fatal steps decide the
outcome; the four swallowed ALTER TABLE steps never do. -/
theorem doInit_eq (env : InitEnv) :
    doInit env =
      if env.ensureDirFails || env.importFails || env.createTableFails then
        DbResult.err (DbError.fatalInit initFailMsg)
      else DbResult.ok () := by
  obtain ⟨e1, e2, e3, a1, a2, a3, a4⟩ := env
  cases e1 <;> cases e2 <;> cases e3 <;> rfl

/-- C6.  An ALTER TABLE failure during initialization is swallowed and
never surfaced; any fatal-step failure makes the whole initialization fail
with the persistence-layer-unavailable error, and that error is
propagated by every operation that triggers initialization on a fresh
instance and by every later operation that awaits the memoized attempt. -/
theorem init_failure_propagation :
    (∀ env : InitEnv, env.ensureDirFails = false → env.importFails = false →
      env.createTableFails = false → doInit env = DbResult.ok ()) ∧
    (∀ env : InitEnv,
      (env.ensureDirFails || env.importFails || env.createTableFails) = true →
      doInit env = DbResult.err (DbError.fatalInit initFailMsg)) ∧
    (∀ (env : InitEnv) (e : DbError) (d : Db) (u : User) (q i t : Str)
        (upd : UserUpdate),
      doInit env = DbResult.err e → d.init = InitState.fresh →
      (Db.addUser env d u).2 = DbResult.err e ∧
      (Db.findUser env d q).2 = DbResult.err e ∧
      (Db.findUserById env d i).2 = DbResult.err e ∧
      (Db.findUserByVerificationToken env d t).2 = DbResult.err e ∧
      (Db.updateUser env d i upd).2 = DbResult.err e ∧
      (Db.emailExists env d q).2 = DbResult.err e ∧
      (Db.getAllUsers env d).2 = DbResult.err e ∧
      (Db.clearAllUsers env d).2 = DbResult.err e ∧
      (Db.findUserById env (Db.addUser env d u).1 i).2 = DbResult.err e) := by
  refine ⟨?_, ?_, ?_⟩
  · intro env h1 h2 h3
    rw [doInit_eq, h1, h2, h3]
    rfl
  · intro env h
    rw [doInit_eq, h]
    rfl
  · intro env e d u q i t upd hfail hd
    have hinit1 : initDb env d.init =
        (⟨false, some (DbResult.err e)⟩, DbResult.err e, true) := by
      rw [hd]
      simp [initDb, InitState.fresh, hfail]
    have hinit2 : initDb env ⟨false, some (DbResult.err e)⟩ =
        (⟨false, some (DbResult.err e)⟩, DbResult.err e, false) := by
      simp [initDb]
    refine ⟨?_, ?_, ?_, ?_, ?_, ?_, ?_, ?_, ?_⟩ <;>
      simp [Db.addUser, Db.findUser, Db.findUserById,
        Db.findUserByVerificationToken, Db.updateUser, Db.emailExists,
        Db.getAllUsers, Db.clearAllUsers, hinit1, hinit2]

/-- Environment whose CREATE TABLE step fails but whose ALTER TABLE steps
would succeed. -/
def envBadTable : InitEnv := ⟨false, false, true, false, false, false, false⟩

/-- Environment where only ALTER TABLE steps fail (columns already
exist). -/
def envAlterFail : InitEnv := ⟨false, false, false, true, true, true, true⟩

/-- Fresh instance with an empty table. -/
def dbFresh : Db := ⟨InitState.fresh, []⟩

/-- C6 witness: swallowed ALTER failures still initialize; a CREATE TABLE
failure is fatal and is what `addUser` on a fresh instance reports. -/
theorem init_failure_propagation_witness :
    doInit envAlterFail = DbResult.ok () ∧
    doInit envBadTable = DbResult.err (DbError.fatalInit initFailMsg) ∧
    (Db.addUser envBadTable dbFresh uFull).2 =
      DbResult.err (DbError.fatalInit initFailMsg) :=
  ⟨init_failure_propagation.1 envAlterFail rfl rfl rfl,
    init_failure_propagation.2.1 envBadTable rfl,
    (init_failure_propagation.2.2 envBadTable (DbError.fatalInit initFailMsg)
      dbFresh uFull [] [] [] updNone (by decide) rfl).1⟩

/-- C7.  `findUser(q)` returns only records matching the WHERE clause
(exact email equality or ASCII-case-insensitive full-name equality), at
most one of them — the first match in the underlying scan order — and
absence (not an error) when nothing matches. -/
theorem findUser_semantics
    (env : InitEnv) (d : Db) (q : Str)
    (hinit : d.init.isInit = true) :
    (∀ u' : RUser, (Db.findUser env d q).2 = DbResult.ok (some u') →
      ∃ r ∈ d.rows, rowToUser r = u' ∧
        (r.universityEmail = q ∨ sqlLower r.fullName = sqlLower q)) ∧
    ((∀ r ∈ d.rows, ¬(r.universityEmail = q ∨ sqlLower r.fullName = sqlLower q)) →
      (Db.findUser env d q).2 = DbResult.ok none) ∧
    (∀ (pre post : List Row) (r : Row), d.rows = pre ++ r :: post →
      (∀ x ∈ pre, ¬(x.universityEmail = q ∨ sqlLower x.fullName = sqlLower q)) →
      (r.universityEmail = q ∨ sqlLower r.fullName = sqlLower q) →
      (Db.findUser env d q).2 = DbResult.ok (some (rowToUser r))) := by
  have hres : (Db.findUser env d q).2 =
      DbResult.ok ((d.rows.find? (findUserPred q)).map rowToUser) := by
    simp [Db.findUser, initDb_isInit hinit]
  have hpred : ∀ r : Row, findUserPred q r = true ↔
      (r.universityEmail = q ∨ sqlLower r.fullName = sqlLower q) := by
    intro r
    simp [findUserPred]
  refine ⟨?_, ?_, ?_⟩
  · intro u' h
    rw [hres] at h
    have h2 : (d.rows.find? (findUserPred q)).map rowToUser = some u' := by
      injection h
    rw [Option.map_eq_some'] at h2
    obtain ⟨r, hfind, hru⟩ := h2
    exact ⟨r, List.mem_of_find?_eq_some hfind, hru,
      (hpred r).mp (List.find?_some hfind)⟩
  · intro hall
    rw [hres, List.find?_eq_none.mpr]
    · rfl
    · intro r hr
      rw [hpred r]
      exact hall r hr
  · intro pre post r hsplit hpre hr
    rw [hres, hsplit, find?_first pre r post]
    · rfl
    · intro x hx
      rw [← Bool.not_eq_true, hpred x]
      exact hpre x hx
    · exact (hpred r).mpr hr

/-- C7 witness: a case-insensitive full-name lookup returns the stored
record as the first (and only) match. -/
theorem findUser_semantics_witness :
    (Db.findUser envG dbUFull ['A', 'L', 'I', 'C', 'E']).2 =
      DbResult.ok (some (rowToUser (userToRow uFull))) :=
  (findUser_semantics envG dbUFull ['A', 'L', 'I', 'C', 'E'] rfl).2.2
    [] [] (userToRow uFull) rfl (by simp) (by right; decide)

/-- C8.  `findUserByVerificationToken(t)` returns only a record whose
stored token equals `t` exactly, absence (not an error) when no record has
that token, and its choice of row never depends on
`verificationTokenExpiry`: rewriting that column arbitrarily in every row
commutes with the lookup, so no expiry-against-clock comparison can be
part of it. -/
theorem findUserByVerificationToken_semantics
    (env : InitEnv) (d : Db) (t : Str)
    (hinit : d.init.isInit = true) :
    (∀ u' : RUser,
      (Db.findUserByVerificationToken env d t).2 = DbResult.ok (some u') →
      ∃ r ∈ d.rows, rowToUser r = u' ∧ r.verificationToken = some t) ∧
    ((∀ r ∈ d.rows, r.verificationToken ≠ some t) →
      (Db.findUserByVerificationToken env d t).2 = DbResult.ok none) ∧
    (∀ f : Row → Option Str,
      (d.rows.map (fun r => { r with verificationTokenExpiry := f r })).find?
          (tokenPred t) =
        (d.rows.find? (tokenPred t)).map
          (fun r => { r with verificationTokenExpiry := f r })) := by
  have hres : (Db.findUserByVerificationToken env d t).2 =
      DbResult.ok ((d.rows.find? (tokenPred t)).map rowToUser) := by
    simp [Db.findUserByVerificationToken, initDb_isInit hinit]
  refine ⟨?_, ?_, ?_⟩
  · intro u' h
    rw [hres] at h
    have h2 : (d.rows.find? (tokenPred t)).map rowToUser = some u' := by
      injection h
    rw [Option.map_eq_some'] at h2
    obtain ⟨r, hfind, hru⟩ := h2
    have := List.find?_some hfind
    rw [tokenPred, decide_eq_true_eq] at this
    exact ⟨r, List.mem_of_find?_eq_some hfind, hru, this⟩
  · intro hall
    rw [hres, List.find?_eq_none.mpr]
    · rfl
    · intro r hr
      rw [tokenPred, decide_eq_true_eq]
      exact hall r hr
  · intro f
    rw [List.find?_map]
    rfl

/-- C8 witness: a token stored in no record yields absence, and rewriting
every expiry commutes with the lookup on a concrete table. -/
theorem findUserByVerificationToken_semantics_witness :
    (Db.findUserByVerificationToken envG dbUFull ['z']).2 = DbResult.ok none ∧
    ((dbUFull.rows.map
        (fun r => { r with verificationTokenExpiry := (fun _ => none) r })).find?
          (tokenPred ['z']) =
      (dbUFull.rows.find? (tokenPred ['z'])).map
        (fun r => { r with verificationTokenExpiry := (fun _ => none) r })) :=
  ⟨(findUserByVerificationToken_semantics envG dbUFull ['z'] rfl).2.1
      (by intro r hr; simp [dbUFull] at hr; simp [hr, userToRow, uFull]),
    (findUserByVerificationToken_semantics envG dbUFull ['z'] rfl).2.2
      (fun _ => none)⟩

/-- C9.  After inserting users A, B, C in that order with strictly
increasing `createdAt` timestamps into an empty table, `getAllUsers`
returns the records ordered by creation time, most recent first:
C, B, A. -/
theorem getAllUsers_desc
    (env : InitEnv) (d : Db) (a b c : User)
    (hinit : d.init.isInit = true)
    (hrows : d.rows = [])
    (hab : a.createdAt < b.createdAt) (hbc : b.createdAt < c.createdAt)
    (hc : c.createdAt < 10 ^ 17)
    (hidab : a.id ≠ b.id) (hidac : a.id ≠ c.id) (hidbc : b.id ≠ c.id)
    (hmab : a.universityEmail ≠ b.universityEmail)
    (hmac : a.universityEmail ≠ c.universityEmail)
    (hmbc : b.universityEmail ≠ c.universityEmail) :
    (Db.addUser env d a).2 = DbResult.ok () ∧
    (Db.addUser env (Db.addUser env d a).1 b).2 = DbResult.ok () ∧
    (Db.addUser env (Db.addUser env (Db.addUser env d a).1 b).1 c).2 =
      DbResult.ok () ∧
    (Db.getAllUsers env
        (Db.addUser env (Db.addUser env (Db.addUser env d a).1 b).1 c).1).2 =
      DbResult.ok [rowToUser (userToRow c), rowToUser (userToRow b),
        rowToUser (userToRow a)] := by
  have hAid : decide ((userToRow a).id = b.id) = false :=
    decide_eq_false (by simp only [userToRow]; exact hidab)
  have hAid2 : decide ((userToRow a).id = c.id) = false :=
    decide_eq_false (by simp only [userToRow]; exact hidac)
  have hBid : decide ((userToRow b).id = c.id) = false :=
    decide_eq_false (by simp only [userToRow]; exact hidbc)
  have hAm : decide ((userToRow a).universityEmail = b.universityEmail) = false :=
    decide_eq_false (by simp only [userToRow]; exact hmab)
  have hAm2 : decide ((userToRow a).universityEmail = c.universityEmail) = false :=
    decide_eq_false (by simp only [userToRow]; exact hmac)
  have hBm : decide ((userToRow b).universityEmail = c.universityEmail) = false :=
    decide_eq_false (by simp only [userToRow]; exact hmbc)
  have hadd1 : Db.addUser env d a = (⟨d.init, [userToRow a]⟩, DbResult.ok ()) := by
    simp [Db.addUser, initDb_isInit hinit, insertRow, hrows]
  have hadd2 : Db.addUser env ⟨d.init, [userToRow a]⟩ b =
      (⟨d.init, [userToRow a, userToRow b]⟩, DbResult.ok ()) := by
    simp [Db.addUser, initDb_isInit hinit, insertRow, hAid, hAm]
  have hadd3 : Db.addUser env ⟨d.init, [userToRow a, userToRow b]⟩ c =
      (⟨d.init, [userToRow a, userToRow b, userToRow c]⟩, DbResult.ok ()) := by
    simp [Db.addUser, initDb_isInit hinit, insertRow, hAid2, hBid, hAm2, hBm]
  have hAB : textLt (userToRow a).createdAt (userToRow b).createdAt = true := by
    simp only [userToRow]
    exact textLt_toISOString hab (lt_trans hbc hc)
  have hAC : textLt (userToRow a).createdAt (userToRow c).createdAt = true := by
    simp only [userToRow]
    exact textLt_toISOString (lt_trans hab hbc) hc
  have hBC : textLt (userToRow b).createdAt (userToRow c).createdAt = true := by
    simp only [userToRow]
    exact textLt_toISOString hbc hc
  have hsort : sortByCreatedDesc [userToRow a, userToRow b, userToRow c] =
      [userToRow c, userToRow b, userToRow a] := by
    simp [sortByCreatedDesc, insertDescRow, hAB, hAC, hBC]
  refine ⟨by rw [hadd1], ?_, ?_, ?_⟩
  · simp only [hadd1, hadd2]
  · simp only [hadd1, hadd2, hadd3]
  · simp only [hadd1, hadd2, hadd3]
    simp [Db.getAllUsers, initDb_isInit hinit, hsort]

/-- Concrete users with increasing timestamps. -/
def uTimeA : User :=
  { uNoPhone with id := ['a'], universityEmail := ['a'], createdAt := 100 }

/-- Second concrete user, created after `uTimeA`. -/
def uTimeB : User :=
  { uNoPhone with id := ['b'], universityEmail := ['b'], createdAt := 200 }

/-- Third concrete user, created after `uTimeB`. -/
def uTimeC : User :=
  { uNoPhone with id := ['c'], universityEmail := ['c'], createdAt := 300 }

/-- C9 witness: three concrete inserts come back most recent first. -/
theorem getAllUsers_desc_witness :
    (Db.addUser envG dbReady uTimeA).2 = DbResult.ok () ∧
    (Db.addUser envG (Db.addUser envG dbReady uTimeA).1 uTimeB).2 =
      DbResult.ok () ∧
    (Db.addUser envG
        (Db.addUser envG (Db.addUser envG dbReady uTimeA).1 uTimeB).1 uTimeC).2 =
      DbResult.ok () ∧
    (Db.getAllUsers envG
        (Db.addUser envG
          (Db.addUser envG (Db.addUser envG dbReady uTimeA).1 uTimeB).1
          uTimeC).1).2 =
      DbResult.ok [rowToUser (userToRow uTimeC), rowToUser (userToRow uTimeB),
        rowToUser (userToRow uTimeA)] :=
  getAllUsers_desc envG dbReady uTimeA uTimeB uTimeC rfl rfl
    (by decide) (by decide) (by decide) (by decide) (by decide) (by decide)
    (by decide) (by decide) (by decide)

/-- C10.  For a user stored with an optional text field absent, every
lookup path returns the decoded row `rowToUser (userToRow u)`, and in that
record each absent optional text field (`phoneNumber`, `universityName`,
`universityId`, `program`, `yearOfStudy`, `verificationToken`) equals
JavaScript `null` — not absence — because the row is spread verbatim
without normalizing NULL for those fields. -/
theorem absent_optional_fields_are_null
    (env : InitEnv) (d : Db) (u : User)
    (hinit : d.init.isInit = true)
    (hrows : d.rows = []) :
    (Db.addUser env d u).2 = DbResult.ok () ∧
    (Db.findUserById env (Db.addUser env d u).1 u.id).2 =
      DbResult.ok (some (rowToUser (userToRow u))) ∧
    (Db.findUser env (Db.addUser env d u).1 u.universityEmail).2 =
      DbResult.ok (some (rowToUser (userToRow u))) ∧
    (Db.getAllUsers env (Db.addUser env d u).1).2 =
      DbResult.ok [rowToUser (userToRow u)] ∧
    (∀ t : Str, u.verificationToken = some t →
      (Db.findUserByVerificationToken env (Db.addUser env d u).1 t).2 =
        DbResult.ok (some (rowToUser (userToRow u)))) ∧
    (u.phoneNumber = none → (rowToUser (userToRow u)).phoneNumber = JsOpt.null) ∧
    (u.universityName = none →
      (rowToUser (userToRow u)).universityName = JsOpt.null) ∧
    (u.universityId = none →
      (rowToUser (userToRow u)).universityId = JsOpt.null) ∧
    (u.program = none → (rowToUser (userToRow u)).program = JsOpt.null) ∧
    (u.yearOfStudy = none →
      (rowToUser (userToRow u)).yearOfStudy = JsOpt.null) ∧
    (u.verificationToken = none →
      (rowToUser (userToRow u)).verificationToken = JsOpt.null) := by
  have hadd : Db.addUser env d u = (⟨d.init, [userToRow u]⟩, DbResult.ok ()) := by
    simp [Db.addUser, initDb_isInit hinit, insertRow, hrows]
  refine ⟨by rw [hadd], ?_, ?_, ?_, ?_, ?_, ?_, ?_, ?_, ?_, ?_⟩
  · simp only [hadd]
    simp [Db.findUserById, initDb_isInit hinit, idPred, userToRow]
  · simp only [hadd]
    simp [Db.findUser, initDb_isInit hinit, findUserPred, userToRow]
  · simp only [hadd]
    simp [Db.getAllUsers, initDb_isInit hinit, sortByCreatedDesc, insertDescRow]
  · intro t ht
    simp only [hadd]
    simp [Db.findUserByVerificationToken, initDb_isInit hinit, tokenPred,
      userToRow, ht]
  · intro h
    simp [rowToUser, userToRow, colToJs, h]
  · intro h
    simp [rowToUser, userToRow, colToJs, h]
  · intro h
    simp [rowToUser, userToRow, colToJs, h]
  · intro h
    simp [rowToUser, userToRow, colToJs, h]
  · intro h
    simp [rowToUser, userToRow, colToJs, h]
  · intro h
    simp [rowToUser, userToRow, colToJs, h]

/-- C10 witness: the stored record of `uNoPhone` comes back from
`findUserById` with `phoneNumber` equal to `null`. -/
theorem absent_optional_fields_are_null_witness :
    (Db.addUser envG dbReady uNoPhone).2 = DbResult.ok () ∧
    (Db.findUserById envG (Db.addUser envG dbReady uNoPhone).1 uNoPhone.id).2 =
      DbResult.ok (some (rowToUser (userToRow uNoPhone))) ∧
    (rowToUser (userToRow uNoPhone)).phoneNumber = JsOpt.null := by
  have h := absent_optional_fields_are_null envG dbReady uNoPhone rfl rfl
  exact ⟨h.1, h.2.1, h.2.2.2.2.2.1 rfl⟩
